import Mathlib

/-!
# Verification of the 3D store planner's packing / placement core

A shallow embedding of the packing engine, vacancy search, 2D geometry
editor and box-interaction state machine of the POC-3D-Store-Planner
repository, together with theorems settling the frozen claims about it.

Numbers that the source manipulates as JavaScript floats are modelled as
rationals (`ℚ`); every constant in scope (0.05, 0.15, 0.25, …) and every
comparison the algorithms perform on them are exactly representable and
far from the decision boundaries, so the rational model decides every
branch the float program decides, the same way.
-/

namespace StorePlanner

/-! ## Constants (Scene3DView, lines 15-17 and 628-630) -/

/-- `POST_SIZE = 0.15`, the size of the vertical rack posts. -/
def POST_SIZE : ℚ := 15/100

/-- `BOX_GAP = 0.05`, the gap between adjacent boxes. -/
def BOX_GAP : ℚ := 5/100

/-- `rackWidth = 3`, width of each rack unit (AisleRacks). -/
def rackWidth : ℚ := 3

/-- `rackDepth = 1.5`, depth of each rack (AisleRacks). -/
def rackDepth : ℚ := 3/2

/-- Shelf usable-area origin on the x (along-rack) axis:
`-rackWidth / 2 + POST_SIZE + 0.1 = -1.25`. -/
def rowStartX : ℚ := -rackWidth/2 + POST_SIZE + 1/10

/-- Row end on the x axis: `rackWidth / 2 - POST_SIZE - 0.1 = 1.25`. -/
def rowEndX : ℚ := rackWidth/2 - POST_SIZE - 1/10

/-- Shelf usable-area origin on the z (depth) axis:
`-rackDepth / 2 + POST_SIZE + 0.1 = -0.5`. -/
def rowStartZ : ℚ := -rackDepth/2 + POST_SIZE + 1/10

/-- Usable depth end on the z axis: `rackDepth / 2 - POST_SIZE - 0.1 = 0.5`. -/
def rowEndZ : ℚ := rackDepth/2 - POST_SIZE - 1/10

/-! ## Data model (src/types and Scene3DView) -/

/-- `boxDimensions {width, height, depth}` of an inventory product. -/
structure BoxDims where
  width : ℚ
  height : ℚ
  depth : ℚ
deriving DecidableEq, Repr

/-- The fields of `InventoryProduct` that the packer reads.  A missing
`boxDimensions` object is `none`; `labelColor` uses `""` for a missing
or empty string (both are falsy in the source's `||` fallback). -/
structure InventoryProduct where
  boxDimensions : Option BoxDims
  labelColor : String
deriving DecidableEq, Repr

/-- An `AisleProduct` allocation `{productId, quantityBoxes, shelfLevel}`.
`quantityBoxes || 0` and `shelfLevel || 1` make a missing/zero count 0 and a
missing/zero shelf level 1, which `Nat` together with the explicit
zero test below reproduces. -/
structure AisleProduct where
  productId : String
  quantityBoxes : Nat
  shelfLevel : Nat
deriving DecidableEq, Repr

/-- The fields of an `Aisle` that the packer reads. -/
structure Aisle where
  id : String
  length : ℚ
  shelves : Nat
  products : List AisleProduct
deriving DecidableEq, Repr

/-- The inventory lookup map (`inventoryMap[prod.productId]`): a partial
map from product id to product; `none` models a dangling reference. -/
def InventoryMap : Type := String → Option InventoryProduct

/-- Resolve a product's box footprint with the source's fallback defaults
(AisleRacks, lines 674-677): a missing `boxDimensions` becomes
`{0.25, 0.2, 0.2}`, and each zero (falsy) component falls back
componentwise to 0.25 / 0.2 / 0.2. -/
def resolveDims (p : InventoryProduct) : BoxDims :=
  let dims := p.boxDimensions.getD ⟨1/4, 1/5, 1/5⟩
  ⟨if dims.width = 0 then 1/4 else dims.width,
   if dims.height = 0 then 1/5 else dims.height,
   if dims.depth = 0 then 1/5 else dims.depth⟩

/-- `invItem.labelColor || '#3B82F6'` (AisleRacks, line 718). -/
def resolveLabelColor (p : InventoryProduct) : String :=
  if p.labelColor = "" then "#3B82F6" else p.labelColor

/-- `prod.shelfLevel || 1` (AisleRacks, line 672). -/
def shelfOf (p : AisleProduct) : Nat :=
  if p.shelfLevel = 0 then 1 else p.shelfLevel

/-- `numUnits = Math.max(1, Math.floor(aisle.length / rackWidth))`
(AisleRacks, line 633). -/
def numUnitsOf (aisle : Aisle) : Nat :=
  max 1 (Int.toNat ⌊aisle.length / rackWidth⌋)

/-- The per-shelf packing cursor `{unit, x, z, boxIdx}` (line 656). -/
structure Cursor where
  unit : Nat
  x : ℚ
  z : ℚ
  boxIdx : Nat
deriving DecidableEq, Repr

/-- The initial cursor of every shelf level (lines 657-664). -/
def initCursor : Cursor := ⟨0, rowStartX, rowStartZ, 0⟩

/-- The deterministic box identity
`` `${aisleId}-${productId}-${targetShelf}-${unit}-${boxIdx}` ``
(line 704). -/
def mkBoxId (aisleId productId : String) (shelf unit seq : Nat) : String :=
  aisleId ++ "-" ++ productId ++ "-" ++ toString shelf ++ "-" ++
    toString unit ++ "-" ++ toString seq

/-- One computed box placement (the `BoxData` pushed at lines 708-722).
`seq` is the `cursor.boxIdx` interpolated into `boxId`; `x`/`z` are the
box center in shelf-local coordinates. -/
structure BoxData where
  boxId : String
  aisleId : String
  shelfLevel : Nat
  unitIndex : Nat
  seq : Nat
  x : ℚ
  z : ℚ
  width : ℚ
  height : ℚ
  depth : ℚ
  labelColor : String
  productId : String
  quantity : Nat
deriving DecidableEq, Repr

/-! ## The packing loop (AisleRacks `boxesByUnitAndLevel`, lines 639-732) -/

/-- One iteration's cursor motion before emission (lines 682-701): the
row-overflow wrap, then the depth-overflow advance to the next unit.  The
returned flag is the `cursor.unit >= numUnits` break condition; the
returned cursor is the state the source leaves behind in either case. -/
def stepCursor (numUnits : Nat) (w d : ℚ) (c : Cursor) : Cursor × Bool :=
  let c1 := if c.x + w > rowEndX
    then { c with x := rowStartX, z := c.z + d + BOX_GAP } else c
  if c1.z + d > rowEndZ then
    let c2 := { c1 with unit := c1.unit + 1, x := rowStartX, z := rowStartZ }
    (c2, decide (numUnits ≤ c2.unit))
  else (c1, false)

/-- The inner `for (let i = 0; i < allocatedCount; i++)` loop (lines
682-725) for one product.  Emission pushes into
`result.get(cursor.unit)!.get(targetShelf)!`, a map whose keys are
exactly `unit < numUnits` and `1 ≤ shelf ≤ shelves`; pushing under any
other key dereferences `undefined` and throws, modelled by `.error ()`. -/
def packBoxes (aid pid lc : String) (shelf numUnits shelves qty : Nat)
    (w h d : ℚ) : Nat → Cursor → Except Unit (Cursor × List BoxData)
  | 0, c => .ok (c, [])
  | n+1, c =>
    let s := stepCursor numUnits w d c
    if s.2 then .ok (s.1, [])
    else
      let c' := s.1
      if c'.unit < numUnits ∧ 1 ≤ shelf ∧ shelf ≤ shelves then
        let box : BoxData :=
          { boxId := mkBoxId aid pid shelf c'.unit c'.boxIdx
            aisleId := aid, shelfLevel := shelf, unitIndex := c'.unit
            seq := c'.boxIdx
            x := c'.x + w/2, z := c'.z + d/2
            width := w, height := h, depth := d
            labelColor := lc, productId := pid, quantity := qty }
        match packBoxes aid pid lc shelf numUnits shelves qty w h d n
            { c' with boxIdx := c'.boxIdx + 1, x := c'.x + w + BOX_GAP } with
        | .ok (cFin, rest) => .ok (cFin, box :: rest)
        | .error e => .error e
      else .error ()

/-- The outer `for (const prod of aisle.products)` loop (lines 667-729):
look the product up (skip silently on a dangling reference), resolve its
footprint, run the inner loop from that shelf's saved cursor, and save the
advanced cursor back for the shelf. -/
def packProducts (aisle : Aisle) (inv : InventoryMap) :
    List AisleProduct → (Nat → Cursor) →
    Except Unit ((Nat → Cursor) × List BoxData)
  | [], cursors => .ok (cursors, [])
  | prod :: rest, cursors =>
    match inv prod.productId with
    | none => packProducts aisle inv rest cursors
    | some item =>
      let dims := resolveDims item
      let shelf := shelfOf prod
      match packBoxes aisle.id prod.productId (resolveLabelColor item) shelf
          (numUnitsOf aisle) aisle.shelves prod.quantityBoxes
          dims.width dims.height dims.depth
          prod.quantityBoxes (cursors shelf) with
      | .error e => .error e
      | .ok (c', boxes) =>
        match packProducts aisle inv rest (Function.update cursors shelf c') with
        | .error e => .error e
        | .ok (cursorsF, boxesRest) => .ok (cursorsF, boxes ++ boxesRest)

/-- `pack (aisle, inventoryMap)`: the full `boxesByUnitAndLevel`
computation, flattened to the list of emitted placements (each placement
carries its `unitIndex` and `shelfLevel` key).  `.error ()` is the
computation throwing a `TypeError`. -/
def pack (aisle : Aisle) (inv : InventoryMap) : Except Unit (List BoxData) :=
  match packProducts aisle inv aisle.products (fun _ => initCursor) with
  | .error e => .error e
  | .ok (_, boxes) => .ok boxes

/-- The placements of a successful pack ( `[]` when the source throws). -/
def packList (aisle : Aisle) (inv : InventoryMap) : List BoxData :=
  match pack aisle inv with
  | .ok l => l
  | .error _ => []

/-- The centered-rectangle overlap test of the vacancy search
(RackUnit, lines 215-218): `|dx| < (w1+w2)/2 AND |dz| < (d1+d2)/2`. -/
def overlapTest (b1 b2 : BoxData) : Prop :=
  |b1.x - b2.x| < (b1.width + b2.width)/2 ∧
  |b1.z - b2.z| < (b1.depth + b2.depth)/2

instance (b1 b2 : BoxData) : Decidable (overlapTest b1 b2) := by
  unfold overlapTest; infer_instance

/-! ## Shelf-count formula (lib/constants, lines 33-47) -/

/-- `DEFAULT_AISLE = { height: 3, shelves: 6 }` — the fixed defaults
spread into every drag-created aisle. -/
def DEFAULT_AISLE_height : ℚ := 3

/-- The fixed default shelf count of `DEFAULT_AISLE`. -/
def DEFAULT_AISLE_shelves : Nat := 6

/-- `calculateShelfCount` (lib/constants, lines 38-47):
usable height = `min(height, 2.1) - 0.15`, shelf count =
`floor(usable / 0.35)`, clamped to `[1, 10]`. -/
def calculateShelfCount (aisleHeight : ℚ) : ℤ :=
  let usableHeight := min aisleHeight (21/10) - 3/20
  let shelfCount := ⌊usableHeight / (7/20)⌋
  max 1 (min 10 shelfCount)

/-! ## 2D aisle geometry editor (CreateStoreModal, Canvas2DEditor) -/

/-- An aisle footprint rectangle `{x, z, width, length}` in meters. -/
structure Rect where
  x : ℚ
  z : ℚ
  width : ℚ
  length : ℚ
deriving DecidableEq, Repr

/-- The store footprint `[0,0]` – `[width, depth]`. -/
structure StoreBounds where
  width : ℚ
  depth : ℚ
deriving DecidableEq, Repr

/-- `snap = (val) => Math.round(val)` (line 335); JavaScript's
`Math.round v` is `⌊v + 1/2⌋`. -/
def snap (v : ℚ) : ℤ := ⌊v + 1/2⌋

/-- The drag-create preview rectangle (handleMouseMove, lines 514-522):
min corner of the snapped anchor (snapped at mousedown, line 434) and the
snapped current point, spans `|Δ|` with a zero span coerced to 1 by
`w || 1` / `l || 1`. -/
def dragPreview (anchorX anchorZ : ℤ) (curX curZ : ℚ) : Rect :=
  let cx := snap curX
  let cz := snap curZ
  let w := |cx - anchorX|
  let l := |cz - anchorZ|
  ⟨(min anchorX cx : ℤ), (min anchorZ cz : ℤ),
   ((if w = 0 then 1 else w : ℤ) : ℚ), ((if l = 0 then 1 else l : ℤ) : ℚ)⟩

/-- Strict axis-aligned rectangle overlap (handleMouseUp, lines 624-642):
touching edge-to-edge does not count as overlapping. -/
def rectOverlaps (r a : Rect) : Prop :=
  ¬ (r.x + r.width ≤ a.x ∨ a.x + a.width ≤ r.x ∨
     r.z + r.length ≤ a.z ∨ a.z + a.length ≤ r.z)

instance (r a : Rect) : Decidable (rectOverlaps r a) := by
  unfold rectOverlaps; infer_instance

/-- The aisle emitted on a successful drag-create commit (lines 652-660):
the committed rectangle, the `DEFAULT_AISLE` spread, and the generated
name `` `Aisle ${n+1}` ``. -/
structure NewAisle where
  name : String
  x : ℚ
  z : ℚ
  width : ℚ
  length : ℚ
  height : ℚ
  shelves : Nat
deriving DecidableEq, Repr

/-- The create branch of `handleMouseUp` (lines 586-679): reject if a
dimension is under `MIN_SIZE = 1`, then if the rectangle leaves the store
bounds, then if it strictly overlaps any existing aisle; otherwise emit
the new aisle.  `none` is the silent cancellation. -/
def commitDragCreate (store : StoreBounds) (existing : List Rect) (r : Rect) :
    Option NewAisle :=
  if r.width < 1 ∨ r.length < 1 then none
  else if r.x < 0 ∨ r.z < 0 ∨ r.x + r.width > store.width ∨
      r.z + r.length > store.depth then none
  else if existing.any (fun a => decide (rectOverlaps r a)) then none
  else some ⟨"Aisle " ++ toString (existing.length + 1), r.x, r.z,
    r.width, r.length, DEFAULT_AISLE_height, DEFAULT_AISLE_shelves⟩

/-! ## Vacancy search (RackUnit, lines 200-223) -/

/-- The held box's footprint used as the vacancy grid pitch. -/
structure SpotSize where
  width : ℚ
  height : ℚ
  depth : ℚ
deriving DecidableEq, Repr

/-- A vacant-slot center `{x: spotX, z: spotZ}` (line 220). -/
structure Spot where
  x : ℚ
  z : ℚ
deriving DecidableEq, Repr

/-- The centered overlap test between a candidate spot and an occupied
box (lines 215-218). -/
def spotOverlapsBox (spotW spotD : ℚ) (s : Spot) (b : BoxData) : Prop :=
  |b.x - s.x| < (b.width + spotW)/2 ∧ |b.z - s.z| < (b.depth + spotD)/2

instance (spotW spotD : ℚ) (s : Spot) (b : BoxData) :
    Decidable (spotOverlapsBox spotW spotD s b) := by
  unfold spotOverlapsBox; infer_instance

/-- The start coordinates visited by the vacancy grid loop
`for (let x = start; x + size <= stop; x += pitch)` (lines 210-211), in
closed form.  Faithful to the loop whenever the pitch is positive, which
it always is in the source (pitch = spot size + `BOX_GAP`, and a
non-positive pitch would make the source loop diverge). -/
def gridAxis (start stop size pitch : ℚ) : List ℚ :=
  if start + size ≤ stop then
    (List.range ((⌊(stop - size - start) / pitch⌋).toNat + 1)).map
      (fun k => start + k * pitch)
  else []

/-- The vacancy search for one shelf level of one rack (lines 200-223):
a regular grid of candidate origins over the usable shelf area, keeping
each center whose footprint overlaps no box of `shelfBoxes`. -/
def vacantSpots (width depth : ℚ) (sz : SpotSize) (shelfBoxes : List BoxData) :
    List Spot :=
  let startX := -width/2 + POST_SIZE + 1/10
  let startZ := -depth/2 + POST_SIZE + 1/10
  let endX := width/2 - POST_SIZE - 1/10
  let endZ := depth/2 - POST_SIZE - 1/10
  (gridAxis startX endX sz.width (sz.width + BOX_GAP)).flatMap fun x =>
    (gridAxis startZ endZ sz.depth (sz.depth + BOX_GAP)).filterMap fun z =>
      let s : Spot := ⟨x + sz.width/2, z + sz.depth/2⟩
      if shelfBoxes.any (fun b => decide (spotOverlapsBox sz.width sz.depth s b))
      then none else some s

/-- The occupied list a `RackUnit` passes to the vacancy search: the
shelf's packed boxes minus the picked-up ones (lines 195-199). -/
def shelfOccupied (allShelfBoxes : List BoxData) (picked : Finset String) :
    List BoxData :=
  allShelfBoxes.filter (fun b => decide (b.boxId ∉ picked))

/-- A persisted manually-placed box (`PlacedBoxData`, lines 370-383). -/
structure PlacedBoxData where
  id : String
  aisleId : String
  unitIndex : Nat
  shelfLevel : Nat
  x : ℚ
  z : ℚ
  width : ℚ
  height : ℚ
  depth : ℚ
  labelColor : String
  productId : String
  productName : String
deriving DecidableEq, Repr

/-- The vacancy search of the right-hand rack of any unit.  AisleRacks
mounts the right `RackUnit` with `boxes={[]}` (line 777), and the placed
overrides of `placedBoxesData` are rendered separately at Scene level
(lines 931-956) without ever entering a `RackUnit`'s `boxes` — so the
grid search sees no occupied boxes at all, whatever overrides exist. -/
def rightRackVacantSpots (_placedBoxesData : List PlacedBoxData)
    (sz : SpotSize) : List Spot :=
  vacantSpots rackWidth rackDepth sz []

/-- The centered overlap test between a candidate spot and a placed
override box (same formula as lines 215-218). -/
def spotOverlapsOverride (sz : SpotSize) (s : Spot) (p : PlacedBoxData) : Prop :=
  |p.x - s.x| < (p.width + sz.width)/2 ∧ |p.z - s.z| < (p.depth + sz.depth)/2

instance (sz : SpotSize) (s : Spot) (p : PlacedBoxData) :
    Decidable (spotOverlapsOverride sz s p) := by
  unfold spotOverlapsOverride; infer_instance

/-! ## Box interaction session (Scene3DView, lines 1435-1654, 1778-1788) -/

/-- The interaction-session state of `Scene3DView`: the held box, the
picked-up boxId set, the locally placed overrides, and the session's
picked-up counter. -/
structure SessionState where
  heldBox : Option BoxData
  pickedBoxIds : Finset String
  placedBoxes : List PlacedBoxData
  pickedUpCount : Nat

/-- The fresh-session initial state. -/
def initSession : SessionState := ⟨none, ∅, [], 0⟩

/-- The `BoxData` built when re-grabbing a placed override
(handleGrabPlacedBox, lines 1620-1634). -/
def boxOfPlaced (p : PlacedBoxData) : BoxData :=
  { boxId := "placed-" ++ p.id, aisleId := p.aisleId
    shelfLevel := p.shelfLevel, unitIndex := p.unitIndex, seq := 0
    x := p.x, z := p.z, width := p.width, height := p.height, depth := p.depth
    labelColor := p.labelColor, productId := p.productId, quantity := 1 }

/-- The user-driven operations of the interaction lifecycle. -/
inductive Act where
  /-- Grab a rendered packed box (handleGrabBox). -/
  | grab (b : BoxData)
  /-- Place the held box on a clicked vacant spot (handlePlaceBox);
  `id` is the generated `` `placed-${Date.now()}` `` record id and
  `pname` the held box's product name (`heldBox.product.name`, a field
  the embedded `BoxData` does not carry). -/
  | place (id aisleId pname : String) (unitIndex shelfLevel : Nat) (x z : ℚ)
  /-- Re-grab a placed override (handleGrabPlacedBox). -/
  | grabPlaced (p : PlacedBoxData)
  /-- Press the Walk-mode button, which also drops the held box
  (`setControlMode('walk'); setHeldBox(null)`, line 1779). -/
  | walkMode
  /-- Reset all moved boxes (handleReset). -/
  | reset

/-- One labelled transition of the interaction session. -/
inductive Step : SessionState → Act → SessionState → Prop where
  /-- handleGrabBox (lines 1508-1513): only a rendered box can be
  clicked, and a rendered box's id is not in `pickedBoxIds` (the RackUnit
  filter, lines 197-199); the box becomes held, its id is added to the
  picked set, and the counter increments. -/
  | grab (s : SessionState) (b : BoxData) (hb : b.boxId ∉ s.pickedBoxIds) :
      Step s (.grab b)
        ⟨some b, insert b.boxId s.pickedBoxIds, s.placedBoxes,
         s.pickedUpCount + 1⟩
  /-- handlePlaceBox (lines 1517-1585): requires a held box; appends the
  new override built from the held box and the target, and clears the
  held box. -/
  | place (s : SessionState) (b : BoxData) (id aid pname : String)
      (u l : Nat) (x z : ℚ) (hheld : s.heldBox = some b) :
      Step s (.place id aid pname u l x z)
        ⟨none, s.pickedBoxIds,
         s.placedBoxes ++
           [⟨id, aid, u, l, x, z, b.width, b.height, b.depth,
             b.labelColor, b.productId, pname⟩],
         s.pickedUpCount⟩
  /-- handleGrabPlacedBox (lines 1608-1654): requires nothing held and
  the override present; removes every override with that record id from
  the local list and holds the rebuilt box.  Does not touch
  `pickedBoxIds` or the counter. -/
  | grabPlaced (s : SessionState) (p : PlacedBoxData)
      (hheld : s.heldBox = none) (hp : p ∈ s.placedBoxes) :
      Step s (.grabPlaced p)
        ⟨some (boxOfPlaced p), s.pickedBoxIds,
         s.placedBoxes.filter (fun q => decide (q.id ≠ p.id)),
         s.pickedUpCount⟩
  /-- The Walk-mode toolbar button (lines 1778-1788): switches mode and
  drops the held box without placing or restoring it. -/
  | walkMode (s : SessionState) :
      Step s .walkMode ⟨none, s.pickedBoxIds, s.placedBoxes, s.pickedUpCount⟩
  /-- handleReset (lines 1588-1605): clears the overrides, the picked
  set, the counter and the held box. -/
  | reset (s : SessionState) : Step s .reset initSession

/-- One transition by any operation. -/
def StepAny (s s' : SessionState) : Prop := ∃ a, Step s a s'

/-- The states the session can reach from a fresh start. -/
def Reachable (s : SessionState) : Prop :=
  Relation.ReflTransGen StepAny initSession s

/-- The number of overrides currently held or placed:
the placed list's length plus one for a held box. -/
def heldOrPlaced (s : SessionState) : Nat :=
  s.placedBoxes.length + (if s.heldBox.isSome then 1 else 0)

/-! ## Predicates for the packing invariants -/

/-- A placement's minimum z coordinate (its near edge). -/
def zmin (b : BoxData) : ℚ := b.z - b.depth/2

/-- A placement's maximum x coordinate (its far edge along the row). -/
def xmax (b : BoxData) : ℚ := b.x + b.width/2

/-- A placement lies entirely inside the usable shelf area of its rack
unit: min corner at least the row/column origin, max corner at most the
usable end, on both axes. -/
def containedBox (b : BoxData) : Prop :=
  rowStartX ≤ b.x - b.width/2 ∧ b.x + b.width/2 ≤ rowEndX ∧
  rowStartZ ≤ b.z - b.depth/2 ∧ b.z + b.depth/2 ≤ rowEndZ

instance (b : BoxData) : Decidable (containedBox b) := by
  unfold containedBox; infer_instance

/-- A placement is geometrically behind a shelf cursor whose shelf packs
boxes of depth `d`: in an earlier unit, or in an earlier row (a full row
step `d + BOX_GAP` before the cursor's row), or in the cursor's row with
its far edge a gap before the cursor. -/
def behindGeom (d : ℚ) (c : Cursor) (b : BoxData) : Prop :=
  b.unitIndex < c.unit ∨
  (b.unitIndex = c.unit ∧
    (zmin b + d + BOX_GAP ≤ c.z ∨ (zmin b = c.z ∧ xmax b + BOX_GAP ≤ c.x)))

/-- A placement compatible with the future of a shelf cursor for a shelf
of uniform box depth `d`: its own depth is `d`, its width is positive,
and it is geometrically behind the cursor. -/
def behindOK (d : ℚ) (c : Cursor) (b : BoxData) : Prop :=
  b.depth = d ∧ 0 < b.width ∧ behindGeom d c b

/-- A placement compatible with the future of every shelf cursor, for a
family `D` of per-shelf uniform box depths. -/
def BehindAll (D : Nat → ℚ) (cursors : Nat → Cursor) (b : BoxData) : Prop :=
  behindOK (D b.shelfLevel) (cursors b.shelfLevel) b

/-- The no-overlap relation claimed for a pack result: two placements on
the same rack unit and shelf level never overlap. -/
def SeparatedPair (b1 b2 : BoxData) : Prop :=
  b1.unitIndex = b2.unitIndex → b1.shelfLevel = b2.shelfLevel →
    ¬ overlapTest b1 b2

instance (b1 b2 : BoxData) : Decidable (SeparatedPair b1 b2) := by
  unfold SeparatedPair; infer_instance

/-- The resolved box dimensions an allocation will pack with, `none` when
the allocation dangles (its product id misses the inventory map). -/
def resolvedDimsOf (inv : InventoryMap) (p : AisleProduct) : Option BoxDims :=
  (inv p.productId).map resolveDims

/-! ## Concrete fixtures for the settled claims -/

/-- An inventory product with the 0.25 × 0.2 × 0.2 box of the end-to-end
scenario. -/
def smallBoxProduct : InventoryProduct := ⟨some ⟨1/4, 1/5, 1/5⟩, "#3B82F6"⟩

/-- Inventory with the single product `P1` of the end-to-end scenario. -/
def c3Inv : InventoryMap := fun pid =>
  if pid = "P1" then some smallBoxProduct else none

/-- The end-to-end scenario aisle: length 6 (two rack units), one shelf,
one allocation of 50 small boxes on shelf level 1. -/
def c3Aisle : Aisle := ⟨"A1", 6, 1, [⟨"P1", 50, 1⟩]⟩

/-- Inventory with two small-box products `P1`, `P2`. -/
def c1Inv : InventoryMap := fun pid =>
  if pid = "P1" then some smallBoxProduct
  else if pid = "P2" then some smallBoxProduct else none

/-- A one-unit aisle whose only shelf is exhausted by the first
allocation (33 boxes requested, 32 fit), followed by a second allocation
targeting the same shelf. -/
def c1Aisle : Aisle := ⟨"A1", 3, 1, [⟨"P1", 33, 1⟩, ⟨"P2", 1, 1⟩]⟩

/-- The same aisle with only the first allocation. -/
def c1AisleFirstOnly : Aisle := ⟨"A1", 3, 1, [⟨"P1", 33, 1⟩]⟩

/-- Inventory for the overlap counterexample: product `PA` with a wide,
deep box (2 × 0.2 × 0.9) and product `PB` with a small shallow box
(0.5 × 0.2 × 0.2). -/
def c2Inv : InventoryMap := fun pid =>
  if pid = "PA" then some ⟨some ⟨2, 1/5, 9/10⟩, "#aa0000"⟩
  else if pid = "PB" then some ⟨some ⟨1/2, 1/5, 1/5⟩, "#00aa00"⟩ else none

/-- One-unit aisle packing one deep `PA` box then two shallow `PB` boxes
onto the same shelf level. -/
def c2Aisle : Aisle := ⟨"A1", 3, 1, [⟨"PA", 1, 1⟩, ⟨"PB", 2, 1⟩]⟩

/-- Inventory for the containment counterexample: a product whose stored
box width is negative (−0.6), which the `||` fallback does not catch. -/
def c10Inv : InventoryMap := fun pid =>
  if pid = "PN" then some ⟨some ⟨-3/5, 1/5, 1/5⟩, "#123456"⟩ else none

/-- One-unit aisle packing two of the negative-width boxes. -/
def c10Aisle : Aisle := ⟨"A1", 3, 1, [⟨"PN", 2, 1⟩]⟩

/-- A placed override sitting exactly on the first vacancy-grid slot of a
right-hand rack shelf (center (−1.125, −0.4), footprint 0.25 × 0.2). -/
def c5Override : PlacedBoxData :=
  ⟨"ov1", "A1", 0, 1, -9/8, -2/5, 1/4, 1/5, 1/5, "#3B82F6", "P1", "Pasta"⟩

/-- The first vacancy-grid slot center of a 3 × 1.5 rack shelf for a
0.25 × 0.2 footprint. -/
def c5Spot : Spot := ⟨-9/8, -2/5⟩

/-- The held-box footprint used in the vacancy counterexample. -/
def c5Size : SpotSize := ⟨1/4, 1/5, 1/5⟩

/-- A concrete packed box used by the session-lifecycle scenarios. -/
def c8Box : BoxData :=
  ⟨"A1-P1-1-0-0", "A1", 1, 0, 0, -9/8, -2/5, 1/4, 1/5, 1/5, "#3B82F6", "P1", 1⟩

/-- The session state after grabbing `c8Box` from a fresh session. -/
def c8Held : SessionState :=
  ⟨some c8Box, insert c8Box.boxId ∅, [], 1⟩

/-- The session state after then pressing the Walk-mode button, which
drops the held box without placing or restoring it. -/
def c8Dropped : SessionState :=
  ⟨none, insert c8Box.boxId ∅, [], 1⟩

/-- A single-box aisle used to witness the boxId identity contract. -/
def c4Aisle : Aisle := ⟨"W", 3, 1, [⟨"P1", 1, 1⟩]⟩

/-- The one placement `pack` computes for `c4Aisle`. -/
def c4Box : BoxData :=
  ⟨"W-P1-1-0-0", "W", 1, 0, 0, -9/8, -2/5, 1/4, 1/5, 1/5, "#3B82F6", "P1", 1⟩

deriving instance DecidableEq for Except

/-!
## Theorems settling the claims
-/

/-- **C1** (code_bug).  The claim says `pack` never throws, and that a
later `AisleProduct` targeting a shelf level whose rack units are already
exhausted has its boxes silently dropped.  The code disagrees: the first
allocation of 33 boxes exhausts the single unit's shelf (32 fit) and
leaves the saved cursor at `unit = numUnits`; the second allocation on
the same shelf then reaches `result.get(cursor.unit)!` with a key that is
not in the map, dereferencing `undefined` — the computation throws.  The
comment at line 697 ("If all units used for this shelf, stop adding") and
the non-null assertions at line 708 show the intended policy is the
claimed silent drop, which the missing re-check defeats. -/
theorem pack_throws_on_exhausted_shelf_level :
    pack c1Aisle c1Inv = .error () ∧
    (packList c1AisleFirstOnly c1Inv).length = 32 := by
  with_unfolding_all decide

/-- **C3** (counterexample).  In the end-to-end scenario (aisle length 6,
two rack units, one shelf, 50 small boxes requested) the claimed strict
bound "total placed < 50" is false: one unit's shelf holds 8 boxes per
row × 4 rows = 32 boxes, so the two units hold 64 and all 50 requested
boxes are placed. -/
theorem endToEnd_not_fewer_than_fifty :
    ¬ ((packList c3Aisle c3Inv).length < 50) := by
  with_unfolding_all decide

/-- **C3** (amended).  The packer fills unit 0 row by row (32 boxes),
continues into unit 1 (18 boxes), and places all 50 requested boxes;
both units receive a nonzero number of boxes, but the total is exactly
50, not strictly less. -/
theorem endToEnd_places_all_fifty :
    (packList c3Aisle c3Inv).length = 50 ∧
    ((packList c3Aisle c3Inv).filter (fun b => b.unitIndex = 0)).length = 32 ∧
    ((packList c3Aisle c3Inv).filter (fun b => b.unitIndex = 1)).length = 18 := by
  with_unfolding_all decide

/-- **C2** (counterexample).  Packing one deep box (2 × 0.9) and then two
shallow boxes (0.5 × 0.2) onto the same shelf level of the same unit
produces overlapping placements: the shallow product's row wrap advances
the cursor by its own depth only, landing its second box inside the deep
box's footprint.  So the unrestricted no-overlap claim is false. -/
theorem pack_overlap_counterexample :
    ¬ (packList c2Aisle c2Inv).Pairwise SeparatedPair := by
  with_unfolding_all decide

/-- **C10** (counterexample).  The claim's hypothesis bounds the resolved
footprint only from above (width ≤ 2.5, depth ≤ 1.0).  A stored negative
box width (−0.6) passes the `||` fallback and that hypothesis, yet walks
the cursor backwards past the row origin, so a placement escapes the
usable area. -/
theorem pack_containment_counterexample :
    (resolveDims ⟨some ⟨-3/5, 1/5, 1/5⟩, "#123456"⟩).width ≤ 5/2 ∧
    (resolveDims ⟨some ⟨-3/5, 1/5, 1/5⟩, "#123456"⟩).depth ≤ 1 ∧
    ¬ ∀ b ∈ packList c10Aisle c10Inv, containedBox b := by
  with_unfolding_all decide

/-- **C5** (counterexample).  The vacancy search never sees the placed
overrides: `placedBoxesData` is rendered at Scene level and is not among
the `boxes` any `RackUnit` passes to the grid filter (the right rack gets
`boxes={[]}` outright).  With an override parked on the first grid slot
of a right-rack shelf, the search still returns that slot, whose
footprint overlaps the override. -/
theorem vacantSpot_overlapping_override_returned :
    c5Spot ∈ rightRackVacantSpots [c5Override] c5Size ∧
    spotOverlapsOverride c5Size c5Spot c5Override := by
  with_unfolding_all decide

/-- **C9** (counterexample).  A newly created aisle's default shelf count
is the fixed constant 6 of `DEFAULT_AISLE`, but the claimed formula
applied to the default height 3 gives
`max(1, min(10, ⌊(min(3, 2.1) − 0.15)/0.35⌋)) = ⌊5.571…⌋ = 5`. -/
theorem default_shelves_ne_formula :
    (DEFAULT_AISLE_shelves : ℤ) ≠ calculateShelfCount DEFAULT_AISLE_height := by
  with_unfolding_all decide

/-- **C9** (amended).  `calculateShelfCount` — the source's shelf-count
formula — always yields an integer in [1, 10]; on the default height 3 it
yields 5; but a drag-created aisle is born with the `DEFAULT_AISLE`
constants height 3 and shelves 6, so the newborn default does NOT equal
the formula applied to the default height. -/
theorem calculateShelfCount_range_default :
    (∀ hgt : ℚ, 1 ≤ calculateShelfCount hgt ∧ calculateShelfCount hgt ≤ 10) ∧
    calculateShelfCount DEFAULT_AISLE_height = 5 ∧
    (commitDragCreate ⟨30, 30⟩ [] ⟨1, 1, 2, 2⟩).map (fun a => (a.height, a.shelves)) =
      some (DEFAULT_AISLE_height, DEFAULT_AISLE_shelves) := by
  refine ⟨?_, by with_unfolding_all decide, by with_unfolding_all decide⟩
  intro hgt
  unfold calculateShelfCount
  exact ⟨le_max_left _ _, max_le (by norm_num) (min_le_left _ _)⟩

/-- **C7** (code_bug).  The claim (and the source's own comments,
"Minimum size check - must drag at least 1m in both directions" /
"this was just a click, not a drag") says a drag whose snapped span is
under 1 m cancels creation.  But the preview coerces a zero span to 1
(`width: w || 1`), and snapped spans are integers, so the preview's
dimensions are always ≥ 1 and the `MIN_SIZE` rejection is unreachable in
the create path: a drag from world (2, 2) to (2.2, 5) — snapped x-span 0
— commits a 1 × 3 aisle instead of cancelling. -/
theorem subMeterDrag_creates_aisle :
    dragPreview 2 2 (11/5) 5 = ⟨2, 2, 1, 3⟩ ∧
    snap (11/5) - snap 2 = 0 ∧
    (commitDragCreate ⟨30, 30⟩ [] ⟨2, 2, 1, 3⟩).isSome = true ∧
    (∀ (ax az : ℤ) (cx cz : ℚ),
      1 ≤ (dragPreview ax az cx cz).width ∧ 1 ≤ (dragPreview ax az cx cz).length) := by
  refine ⟨by with_unfolding_all decide, by with_unfolding_all decide,
    by with_unfolding_all decide, ?_⟩
  intro ax az cx cz
  unfold dragPreview
  constructor
  · dsimp only
    split
    · norm_num
    · rename_i hne
      have h1 : 1 ≤ |snap cx - ax| := by
        rcases (abs_nonneg (snap cx - ax)).lt_or_eq with h | h
        · exact h
        · exact absurd h.symm hne
      exact_mod_cast h1
  · dsimp only
    split
    · norm_num
    · rename_i hne
      have h1 : 1 ≤ |snap cz - az| := by
        rcases (abs_nonneg (snap cz - az)).lt_or_eq with h | h
        · exact h
        · exact absurd h.symm hne
      exact_mod_cast h1

/-- **C6** (confirmed).  Committing a preview rectangle with both
dimensions ≥ 1, fully inside the store bounds, overlapping no existing
aisle, produces exactly one new aisle whose (x, z, width, length) equal
the committed rectangle; the drag preview is always snapped to integer
meters; rectangle (5,5,10,10) against existing (0,0,10,10) is rejected,
while the edge-touching (10,0,10,10) is accepted. -/
theorem commitDragCreate_roundtrip :
    (∀ (store : StoreBounds) (existing : List Rect) (r : Rect),
      1 ≤ r.width → 1 ≤ r.length → 0 ≤ r.x → 0 ≤ r.z →
      r.x + r.width ≤ store.width → r.z + r.length ≤ store.depth →
      (∀ a ∈ existing, ¬ rectOverlaps r a) →
      (commitDragCreate store existing r).map (fun a => (a.x, a.z, a.width, a.length)) =
        some (r.x, r.z, r.width, r.length)) ∧
    commitDragCreate ⟨30, 30⟩ [⟨0, 0, 10, 10⟩] ⟨5, 5, 10, 10⟩ = none ∧
    (commitDragCreate ⟨30, 30⟩ [⟨0, 0, 10, 10⟩] ⟨10, 0, 10, 10⟩).map
      (fun a => (a.x, a.z, a.width, a.length)) = some (10, 0, 10, 10) ∧
    (∀ (ax az : ℤ) (cx cz : ℚ), ∃ xi zi wi li : ℤ,
      dragPreview ax az cx cz = ⟨(xi : ℚ), (zi : ℚ), (wi : ℚ), (li : ℚ)⟩) := by
  refine ⟨?_, by with_unfolding_all decide, by with_unfolding_all decide, ?_⟩
  · intro store existing r hw hl hx hz hbw hbd hov
    unfold commitDragCreate
    rw [if_neg, if_neg, if_neg]
    · rfl
    · intro hany
      rw [List.any_eq_true] at hany
      obtain ⟨a, ha, hd⟩ := hany
      exact hov a ha (of_decide_eq_true hd)
    · push_neg
      exact ⟨hx, hz, hbw, hbd⟩
    · push_neg
      exact ⟨hw, hl⟩
  · intro ax az cx cz
    exact ⟨min ax (snap cx), min az (snap cz),
      if |snap cx - ax| = 0 then 1 else |snap cx - ax|,
      if |snap cz - az| = 0 then 1 else |snap cz - az|, rfl⟩

/-- **C6** (witness): the general commit round trip applied to a concrete
in-bounds, non-overlapping rectangle. -/
theorem commitDragCreate_roundtrip_witness :
    (commitDragCreate ⟨30, 30⟩ [⟨0, 0, 10, 10⟩] ⟨12, 2, 3, 4⟩).map
      (fun a => (a.x, a.z, a.width, a.length)) = some (12, 2, 3, 4) :=
  commitDragCreate_roundtrip.1 ⟨30, 30⟩ [⟨0, 0, 10, 10⟩] ⟨12, 2, 3, 4⟩
    (by norm_num) (by norm_num) (by norm_num) (by norm_num) (by norm_num)
    (by norm_num)
    (by intro a ha
        simp only [List.mem_singleton] at ha
        subst ha
        unfold rectOverlaps
        norm_num)

/-- Every placement a successful inner packing loop emits carries the
loop's aisle/product/shelf identifiers, the resolved footprint, and a
`boxId` built by `mkBoxId` from its own recorded key fields. -/
theorem packBoxes_fields (aid pid lc : String) (shelf nu sh qty : Nat) (w h d : ℚ) :
    ∀ (n : Nat) (c c' : Cursor) (out : List BoxData),
      packBoxes aid pid lc shelf nu sh qty w h d n c = .ok (c', out) →
      ∀ b ∈ out, b.aisleId = aid ∧ b.productId = pid ∧ b.shelfLevel = shelf ∧
        b.width = w ∧ b.height = h ∧ b.depth = d ∧
        b.boxId = mkBoxId aid pid b.shelfLevel b.unitIndex b.seq := by
  intro n
  induction n with
  | zero =>
    intro c c' out hok b hb
    simp only [packBoxes] at hok
    cases hok
    simp at hb
  | succ n ih =>
    intro c c' out hok b hb
    simp only [packBoxes] at hok
    split at hok
    · cases hok
      simp at hb
    · split at hok
      · split at hok
        · rename_i heq
          cases hok
          rcases List.mem_cons.1 hb with rfl | hb2
          · exact ⟨rfl, rfl, rfl, rfl, rfl, rfl, rfl⟩
          · exact ih _ _ _ heq b hb2
        · cases hok
      · cases hok

/-- Every placement a successful product loop emits carries the aisle id
and the `mkBoxId` identity built from its own recorded key fields. -/
theorem packProducts_fields (aisle : Aisle) (inv : InventoryMap) :
    ∀ (prods : List AisleProduct) (cursors cursors' : Nat → Cursor) (L : List BoxData),
      packProducts aisle inv prods cursors = .ok (cursors', L) →
      ∀ b ∈ L, b.aisleId = aisle.id ∧
        b.boxId = mkBoxId aisle.id b.productId b.shelfLevel b.unitIndex b.seq := by
  intro prods
  induction prods with
  | nil =>
    intro cursors cursors' L hok b hb
    simp only [packProducts] at hok
    cases hok
    simp at hb
  | cons p rest ih =>
    intro cursors cursors' L hok b hb
    simp only [packProducts] at hok
    cases hinv : inv p.productId with
    | none =>
      simp only [hinv] at hok
      exact ih _ _ _ hok b hb
    | some item =>
      simp only [hinv] at hok
      cases hpb : packBoxes aisle.id p.productId (resolveLabelColor item) (shelfOf p)
          (numUnitsOf aisle) aisle.shelves p.quantityBoxes
          (resolveDims item).width (resolveDims item).height (resolveDims item).depth
          p.quantityBoxes (cursors (shelfOf p)) with
      | error e =>
        simp only [hpb] at hok
        exact Except.noConfusion hok
      | ok cb =>
        obtain ⟨c1, boxes1⟩ := cb
        simp only [hpb] at hok
        cases hpr : packProducts aisle inv rest (Function.update cursors (shelfOf p) c1) with
        | error e =>
          simp only [hpr] at hok
          exact Except.noConfusion hok
        | ok cr =>
          obtain ⟨c2, boxes2⟩ := cr
          simp only [hpr] at hok
          cases hok
          rcases List.mem_append.1 hb with hb1 | hb2
          · obtain ⟨ha, hp, hs, _, _, _, hid⟩ :=
              packBoxes_fields aisle.id p.productId _ _ _ _ _ _ _ _ _ _ _ _ hpb b hb1
            exact ⟨ha, by rw [hid, hp]⟩
          · exact ih _ _ _ hpr b hb2

/-- Every placement of a successful `pack` carries the aisle id and the
`mkBoxId` identity built from its own recorded key fields. -/
theorem pack_fields (aisle : Aisle) (inv : InventoryMap) :
    ∀ L, pack aisle inv = .ok L → ∀ b ∈ L,
      b.aisleId = aisle.id ∧
      b.boxId = mkBoxId aisle.id b.productId b.shelfLevel b.unitIndex b.seq := by
  intro L hok b hb
  unfold pack at hok
  cases hpp : packProducts aisle inv aisle.products (fun _ => initCursor) with
  | error e =>
    simp only [hpp] at hok
    exact Except.noConfusion hok
  | ok cr =>
    obtain ⟨cf, boxes⟩ := cr
    simp only [hpp] at hok
    cases hok
    exact packProducts_fields aisle inv _ _ _ _ hpp b hb

/-- **C4** (confirmed).  `pack` is a pure function of (aisle,
inventoryMap) — re-running it on unchanged inputs yields the identical
placement list — and every placement's `boxId` is the deterministic
`mkBoxId` composition of aisle id, product id, shelf level, unit index
and the shelf's sequence counter, so the identity is stable across
re-computation. -/
theorem pack_deterministic_stable_boxId (aisle : Aisle) (inv : InventoryMap) :
    pack aisle inv = pack aisle inv ∧
    ∀ L, pack aisle inv = .ok L → ∀ b ∈ L,
      b.aisleId = aisle.id ∧
      b.boxId = mkBoxId aisle.id b.productId b.shelfLevel b.unitIndex b.seq :=
  ⟨rfl, pack_fields aisle inv⟩

/-- **C4** (witness): the identity contract evaluated on the one
placement of the single-box aisle `c4Aisle`. -/
theorem pack_deterministic_stable_boxId_witness :
    c4Box.boxId = mkBoxId "W" c4Box.productId c4Box.shelfLevel c4Box.unitIndex c4Box.seq :=
  ((pack_deterministic_stable_boxId c4Aisle c3Inv).2 [c4Box]
    (by with_unfolding_all decide) c4Box (List.mem_singleton.mpr rfl)).2

/-- **C5** (amended).  A candidate slot is returned by the vacancy search
iff it is a grid candidate and its centered footprint overlaps no box of
the occupied list the rack passes in, under the test
`|dx| < (w1+w2)/2 AND |dz| < (d1+d2)/2`.  That occupied list holds only
the shelf's packer-computed boxes minus the picked-up ones (and is empty
for the right rack); placed overrides are not in it, so the original
claim's override-exclusion clause fails (see the counterexample). -/
theorem vacantSpots_mem_iff (width depth : ℚ) (sz : SpotSize)
    (shelfBoxes : List BoxData) (s : Spot) :
    s ∈ vacantSpots width depth sz shelfBoxes ↔
      ((∃ x ∈ gridAxis (-width/2 + POST_SIZE + 1/10) (width/2 - POST_SIZE - 1/10)
          sz.width (sz.width + BOX_GAP),
        ∃ z ∈ gridAxis (-depth/2 + POST_SIZE + 1/10) (depth/2 - POST_SIZE - 1/10)
          sz.depth (sz.depth + BOX_GAP),
        s = ⟨x + sz.width/2, z + sz.depth/2⟩) ∧
       ∀ b ∈ shelfBoxes, ¬ spotOverlapsBox sz.width sz.depth s b) := by
  unfold vacantSpots
  simp only [List.mem_flatMap, List.mem_filterMap]
  constructor
  · rintro ⟨x, hx, z, hz, hif⟩
    by_cases hany : shelfBoxes.any
        (fun b => decide (spotOverlapsBox sz.width sz.depth ⟨x + sz.width/2, z + sz.depth/2⟩ b)) = true
    · rw [if_pos hany] at hif
      exact Option.noConfusion hif
    · rw [if_neg hany] at hif
      cases hif
      refine ⟨⟨x, hx, z, hz, rfl⟩, ?_⟩
      intro b hb hover
      exact hany (List.any_eq_true.2 ⟨b, hb, decide_eq_true hover⟩)
  · rintro ⟨⟨x, hx, z, hz, rfl⟩, hfree⟩
    refine ⟨x, hx, z, hz, ?_⟩
    rw [if_neg]
    intro hany
    obtain ⟨b, hb, hd⟩ := List.any_eq_true.1 hany
    exact hfree b hb (of_decide_eq_true hd)

/-- Removing one present element's id by filtering strictly shrinks the
override list. -/
theorem length_filter_ne_lt {l : List PlacedBoxData} {p : PlacedBoxData}
    (hp : p ∈ l) :
    (l.filter (fun q => decide (q.id ≠ p.id))).length < l.length := by
  induction l with
  | nil => cases hp
  | cons a t ih =>
    rcases List.mem_cons.1 hp with rfl | hpt
    · simp only [List.filter_cons]
      rw [if_neg (by simp)]
      exact Nat.lt_succ_of_le (List.length_filter_le _ _)
    · simp only [List.filter_cons]
      split
      · simpa using ih hpt
      · exact Nat.lt_succ_of_lt (ih hpt)

/-- Every single interaction step preserves the session accounting
inequality: held-or-placed overrides never exceed picked-up ids. -/
theorem step_heldOrPlaced_le {s : SessionState} {a : Act} {s' : SessionState}
    (h : Step s a s') (ih : heldOrPlaced s ≤ s.pickedBoxIds.card) :
    heldOrPlaced s' ≤ s'.pickedBoxIds.card := by
  cases h with
  | grab b hb =>
    have hle : s.placedBoxes.length ≤ s.pickedBoxIds.card :=
      le_trans (Nat.le_add_right _ _) ih
    simp only [heldOrPlaced, Finset.card_insert_of_not_mem hb]
    simp
    omega
  | place b id aid pname u l x z hheld =>
    simp only [heldOrPlaced, hheld] at ih
    simp only [heldOrPlaced, List.length_append, List.length_singleton]
    simp at ih ⊢
    omega
  | grabPlaced p hheld hp =>
    have hlt := length_filter_ne_lt hp
    simp only [ne_eq, decide_not] at hlt
    simp only [heldOrPlaced, hheld] at ih
    simp only [heldOrPlaced]
    simp at ih ⊢
    omega
  | walkMode =>
    simp only [heldOrPlaced] at ih ⊢
    simp at ih ⊢
    omega
  | reset =>
    simp [heldOrPlaced, initSession]

/-- **C8** (amended).  At every reachable session state the number of
held-or-placed overrides is at most (not equal to) the number of
picked-up boxIds, and reset is the only operation that can shrink the
picked-up set — every other operation preserves or grows it, so only
resetAll can bring the count to zero.  Equality fails (see the
counterexample) because the Walk-mode button drops a held box without
restoring its source. -/
theorem session_picked_ge_overrides :
    (∀ s, Reachable s → heldOrPlaced s ≤ s.pickedBoxIds.card) ∧
    (∀ s a s', Step s a s' → a ≠ Act.reset → s.pickedBoxIds ⊆ s'.pickedBoxIds) := by
  constructor
  · intro s h
    induction h with
    | refl => simp [heldOrPlaced, initSession]
    | tail h1 h2 ih =>
      obtain ⟨a, hstep⟩ := h2
      exact step_heldOrPlaced_le hstep ih
  · intro s a s' h hne
    cases h with
    | grab b hb => exact Finset.subset_insert _ _
    | place b id aid pname u l x z hheld => exact Finset.Subset.refl _
    | grabPlaced p hheld hp => exact Finset.Subset.refl _
    | walkMode => exact Finset.Subset.refl _
    | reset => exact absurd rfl hne

/-- **C8** (counterexample).  Grab a box, then press the Walk-mode
button: the button's `setHeldBox(null)` drops the held box without
restoring its source or clearing its picked id, so the reached state has
one picked-up boxId but zero held-or-placed overrides — the claimed
equality fails at a reachable state. -/
theorem session_count_equality_fails :
    Reachable c8Dropped ∧ c8Dropped.pickedBoxIds.card ≠ heldOrPlaced c8Dropped := by
  constructor
  · have h1 : StepAny initSession c8Held :=
      ⟨_, Step.grab initSession c8Box (Finset.not_mem_empty _)⟩
    have h2 : StepAny c8Held c8Dropped := ⟨_, Step.walkMode c8Held⟩
    exact Relation.ReflTransGen.tail (Relation.ReflTransGen.single h1) h2
  · with_unfolding_all decide

/-- **C8** (witness): the accounting inequality evaluated at the
concrete reachable dropped state, and the picked-set monotonicity
evaluated on a concrete grab step. -/
theorem session_picked_ge_overrides_witness :
    heldOrPlaced c8Dropped ≤ c8Dropped.pickedBoxIds.card ∧
    initSession.pickedBoxIds ⊆ c8Held.pickedBoxIds := by
  constructor
  · refine session_picked_ge_overrides.1 c8Dropped ?_
    exact Relation.ReflTransGen.tail
      (Relation.ReflTransGen.single
        ⟨_, Step.grab initSession c8Box (Finset.not_mem_empty _)⟩)
      ⟨_, Step.walkMode c8Held⟩
  · exact session_picked_ge_overrides.2 initSession _ c8Held
      (Step.grab initSession c8Box (Finset.not_mem_empty _))
      (fun hc => Act.noConfusion hc)

/-- One cursor step keeps the cursor inside the usable area (given a
footprint no larger than the usable area), and when it does not break,
the landing position leaves room for the whole footprint. -/
theorem stepCursor_bounds {nu : Nat} {w d : ℚ} {c c1 : Cursor} {brk : Bool}
    (hstep : stepCursor nu w d c = (c1, brk))
    (hw : w ≤ 5/2) (hd0 : 0 < d) (hd : d ≤ 1)
    (hcx : rowStartX ≤ c.x) (hcz : rowStartZ ≤ c.z) :
    rowStartX ≤ c1.x ∧ rowStartZ ≤ c1.z ∧
    (brk = false → c1.x + w ≤ rowEndX ∧ c1.z + d ≤ rowEndZ) := by
  have hgap : (0 : ℚ) < BOX_GAP := by norm_num [BOX_GAP]
  have hse : rowStartX + (5/2 : ℚ) = rowEndX := by
    norm_num [rowStartX, rowEndX, rackWidth, POST_SIZE]
  have hsz : rowStartZ + (1 : ℚ) = rowEndZ := by
    norm_num [rowStartZ, rowEndZ, rackDepth, POST_SIZE]
  simp only [stepCursor] at hstep
  by_cases h1 : c.x + w > rowEndX
  · rw [if_pos h1] at hstep
    by_cases h2 : c.z + d + BOX_GAP + d > rowEndZ
    · rw [if_pos h2] at hstep
      cases hstep
      dsimp only
      exact ⟨le_refl _, le_refl _, fun _ => ⟨by linarith, by linarith⟩⟩
    · rw [if_neg h2] at hstep
      cases hstep
      dsimp only
      exact ⟨le_refl _, by linarith, fun _ => ⟨by linarith, by linarith⟩⟩
  · rw [if_neg h1] at hstep
    by_cases h2 : c.z + d > rowEndZ
    · rw [if_pos h2] at hstep
      cases hstep
      dsimp only
      exact ⟨le_refl _, le_refl _, fun _ => ⟨by linarith, by linarith⟩⟩
    · rw [if_neg h2] at hstep
      cases hstep
      exact ⟨hcx, hcz, fun _ => ⟨by linarith, by linarith⟩⟩

/-- The inner packing loop keeps its cursor inside the usable area and
emits only contained placements, whenever the footprint is positive and
no larger than the usable 2.5 × 1.0 shelf area. -/
theorem packBoxes_contained (aid pid lc : String) (shelf nu sh qty : Nat)
    (w h d : ℚ) (hw0 : 0 < w) (hw : w ≤ 5/2) (hd0 : 0 < d) (hd : d ≤ 1) :
    ∀ (n : Nat) (c c' : Cursor) (out : List BoxData),
      packBoxes aid pid lc shelf nu sh qty w h d n c = .ok (c', out) →
      rowStartX ≤ c.x → rowStartZ ≤ c.z →
      (rowStartX ≤ c'.x ∧ rowStartZ ≤ c'.z ∧ ∀ b ∈ out, containedBox b) := by
  have hgap : (0 : ℚ) < BOX_GAP := by norm_num [BOX_GAP]
  intro n
  induction n with
  | zero =>
    intro c c' out hok hcx hcz
    simp only [packBoxes] at hok
    cases hok
    exact ⟨hcx, hcz, by simp⟩
  | succ n ih =>
    intro c c' out hok hcx hcz
    simp only [packBoxes] at hok
    cases hstep : stepCursor nu w d c with
    | mk c1 brk =>
      rw [hstep] at hok
      dsimp only at hok
      by_cases hbrk : brk = true
      · subst hbrk
        rw [if_pos rfl] at hok
        cases hok
        obtain ⟨h1, h2, _⟩ := stepCursor_bounds hstep hw hd0 hd hcx hcz
        exact ⟨h1, h2, by simp⟩
      · rw [Bool.not_eq_true] at hbrk
        subst hbrk
        rw [if_neg (by simp)] at hok
        obtain ⟨h1, h2, h3⟩ := stepCursor_bounds hstep hw hd0 hd hcx hcz
        obtain ⟨hxe, hze⟩ := h3 rfl
        split at hok
        · split at hok
          · rename_i hguard heq
            cases hok
            have hnext := ih _ _ _ heq (by dsimp only; linarith) (by dsimp only; linarith)
            refine ⟨hnext.1, hnext.2.1, ?_⟩
            intro b hb
            rcases List.mem_cons.1 hb with rfl | hb2
            · refine ⟨?_, ?_, ?_, ?_⟩ <;> dsimp only <;> linarith
            · exact hnext.2.2 b hb2
          · cases hok
        · cases hok

/-- The product loop keeps every shelf cursor inside the usable area and
emits only contained placements, whenever every allocation's resolved
footprint is positive and no larger than the usable shelf area. -/
theorem packProducts_contained (aisle : Aisle) (inv : InventoryMap) :
    ∀ (prods : List AisleProduct) (cursors cursors' : Nat → Cursor) (L : List BoxData),
      packProducts aisle inv prods cursors = .ok (cursors', L) →
      (∀ p ∈ prods, ∀ dims ∈ resolvedDimsOf inv p,
        0 < dims.width ∧ dims.width ≤ 5/2 ∧ 0 < dims.depth ∧ dims.depth ≤ 1) →
      (∀ l, rowStartX ≤ (cursors l).x ∧ rowStartZ ≤ (cursors l).z) →
      ((∀ l, rowStartX ≤ (cursors' l).x ∧ rowStartZ ≤ (cursors' l).z) ∧
       ∀ b ∈ L, containedBox b) := by
  intro prods
  induction prods with
  | nil =>
    intro cursors cursors' L hok hdims hcur
    simp only [packProducts] at hok
    cases hok
    exact ⟨hcur, by simp⟩
  | cons p rest ih =>
    intro cursors cursors' L hok hdims hcur
    simp only [packProducts] at hok
    cases hinv : inv p.productId with
    | none =>
      simp only [hinv] at hok
      exact ih _ _ _ hok (fun q hq => hdims q (List.mem_cons_of_mem _ hq)) hcur
    | some item =>
      simp only [hinv] at hok
      have hd : 0 < (resolveDims item).width ∧ (resolveDims item).width ≤ 5/2 ∧
          0 < (resolveDims item).depth ∧ (resolveDims item).depth ≤ 1 := by
        refine hdims p (List.mem_cons_self _ _) (resolveDims item) ?_
        simp [resolvedDimsOf, hinv]
      cases hpb : packBoxes aisle.id p.productId (resolveLabelColor item) (shelfOf p)
          (numUnitsOf aisle) aisle.shelves p.quantityBoxes
          (resolveDims item).width (resolveDims item).height (resolveDims item).depth
          p.quantityBoxes (cursors (shelfOf p)) with
      | error e =>
        simp only [hpb] at hok
        exact Except.noConfusion hok
      | ok cb =>
        obtain ⟨c1, boxes1⟩ := cb
        simp only [hpb] at hok
        have hb1 := packBoxes_contained aisle.id p.productId (resolveLabelColor item)
          (shelfOf p) (numUnitsOf aisle) aisle.shelves p.quantityBoxes
          (resolveDims item).width (resolveDims item).height (resolveDims item).depth
          hd.1 hd.2.1 hd.2.2.1 hd.2.2.2 _ _ _ _ hpb
          (hcur (shelfOf p)).1 (hcur (shelfOf p)).2
        cases hpr : packProducts aisle inv rest (Function.update cursors (shelfOf p) c1) with
        | error e =>
          simp only [hpr] at hok
          exact Except.noConfusion hok
        | ok cr =>
          obtain ⟨c2, boxes2⟩ := cr
          simp only [hpr] at hok
          cases hok
          have hcur1 : ∀ l, rowStartX ≤ ((Function.update cursors (shelfOf p) c1) l).x ∧
              rowStartZ ≤ ((Function.update cursors (shelfOf p) c1) l).z := by
            intro l
            by_cases hl : l = shelfOf p
            · subst hl
              rw [Function.update_same]
              exact ⟨hb1.1, hb1.2.1⟩
            · rw [Function.update_noteq hl]
              exact hcur l
          have hrest := ih _ _ _ hpr (fun q hq => hdims q (List.mem_cons_of_mem _ hq)) hcur1
          refine ⟨hrest.1, ?_⟩
          intro b hb
          rcases List.mem_append.1 hb with hbl | hbr
          · exact hb1.2.2 b hbl
          · exact hrest.2 b hbr

/-- **C10** (amended).  If every allocation's resolved box footprint is
positive and no larger than the rack unit's usable shelf area (width ≤
2.5 m, depth ≤ 1.0 m, the 3 × 1.5 m rack minus the 0.25 m inset on each
side), then every placement a successful `pack` emits lies entirely
within the usable area of its (unitIndex, shelfLevel): min-corner localX
in [startX, endX − width] and localZ in [startZ, endZ − depth].  The
positivity requirement is forced: a negative stored width passes the
source's `||` fallback and escapes the area (see the counterexample). -/
theorem pack_contained_of_bounded_dims (aisle : Aisle) (inv : InventoryMap)
    (hdims : ∀ p ∈ aisle.products, ∀ dims ∈ resolvedDimsOf inv p,
      0 < dims.width ∧ dims.width ≤ 5/2 ∧ 0 < dims.depth ∧ dims.depth ≤ 1)
    (L : List BoxData) (hok : pack aisle inv = .ok L) :
    ∀ b ∈ L, containedBox b := by
  unfold pack at hok
  cases hpp : packProducts aisle inv aisle.products (fun _ => initCursor) with
  | error e =>
    simp only [hpp] at hok
    exact Except.noConfusion hok
  | ok cr =>
    obtain ⟨cf, boxes⟩ := cr
    simp only [hpp] at hok
    cases hok
    exact (packProducts_contained aisle inv _ _ _ _ hpp hdims
      (fun l => ⟨le_refl _, le_refl _⟩)).2

/-- **C10** (witness): containment evaluated on the single placement of
the small-box aisle `c4Aisle`, whose footprint satisfies the bounds. -/
theorem pack_contained_of_bounded_dims_witness : containedBox c4Box :=
  pack_contained_of_bounded_dims c4Aisle c3Inv
    (by
      intro p hp dims hd
      simp only [c4Aisle, List.mem_singleton] at hp
      subst hp
      rw [Option.mem_def] at hd
      norm_num [resolvedDimsOf, c3Inv, smallBoxProduct, resolveDims] at hd
      subst hd
      norm_num)
    [c4Box] (by with_unfolding_all decide) c4Box (List.mem_singleton.mpr rfl)

/-- The centered overlap test is symmetric. -/
theorem overlapTest_comm {b1 b2 : BoxData} : overlapTest b1 b2 ↔ overlapTest b2 b1 := by
  unfold overlapTest
  rw [abs_sub_comm b1.x, abs_sub_comm b1.z, add_comm b1.width, add_comm b1.depth]

/-- A cursor step never moves the cursor behind a placement that was
already behind it, on a shelf of uniform box depth `d`. -/
theorem stepCursor_behind {nu : Nat} {w d : ℚ} {c c1 : Cursor} {brk : Bool}
    (hstep : stepCursor nu w d c = (c1, brk)) (hd0 : 0 < d)
    {b : BoxData} (hb : behindGeom d c b) : behindGeom d c1 b := by
  have hgap : (0:ℚ) < BOX_GAP := by norm_num [BOX_GAP]
  simp only [stepCursor] at hstep
  by_cases h1 : c.x + w > rowEndX
  · rw [if_pos h1] at hstep
    by_cases h2 : c.z + d + BOX_GAP + d > rowEndZ
    · rw [if_pos h2] at hstep
      cases hstep
      rcases hb with h | ⟨he, _⟩
      · exact Or.inl (by dsimp only; omega)
      · exact Or.inl (by dsimp only; omega)
    · rw [if_neg h2] at hstep
      cases hstep
      rcases hb with h | ⟨he, hz | ⟨hz, hx⟩⟩
      · exact Or.inl h
      · exact Or.inr ⟨he, Or.inl (by dsimp only; linarith)⟩
      · exact Or.inr ⟨he, Or.inl (by dsimp only; linarith)⟩
  · rw [if_neg h1] at hstep
    by_cases h2 : c.z + d > rowEndZ
    · rw [if_pos h2] at hstep
      cases hstep
      rcases hb with h | ⟨he, _⟩
      · exact Or.inl (by dsimp only; omega)
      · exact Or.inl (by dsimp only; omega)
    · rw [if_neg h2] at hstep
      cases hstep
      exact hb

/-- The post-emission cursor advance (x moves right by `w + BOX_GAP`)
keeps behind placements behind. -/
theorem advance_behind {d w : ℚ} {c1 : Cursor} {b : BoxData} (hw0 : 0 < w)
    (hb : behindGeom d c1 b) :
    behindGeom d { c1 with boxIdx := c1.boxIdx + 1, x := c1.x + w + BOX_GAP } b := by
  have hgap : (0:ℚ) < BOX_GAP := by norm_num [BOX_GAP]
  rcases hb with h | ⟨he, hz | ⟨hz, hx⟩⟩
  · exact Or.inl h
  · exact Or.inr ⟨he, Or.inl hz⟩
  · exact Or.inr ⟨he, Or.inr ⟨hz, by dsimp only; linarith⟩⟩

/-- A box emitted at the cursor position does not overlap any placement
behind the cursor on the same rack unit: a behind placement is either a
full row step `d + BOX_GAP` nearer the front, or in the same row with its
far edge a gap before the cursor. -/
theorem emitted_not_overlap {d w : ℚ} {c1 : Cursor} {b nb : BoxData}
    (hOK : behindOK d c1 b)
    (hnx : nb.x = c1.x + w/2) (hnz : nb.z = c1.z + d/2)
    (hnw : nb.width = w) (hnd : nb.depth = d) (hnu : nb.unitIndex = c1.unit)
    (hu : nb.unitIndex = b.unitIndex) :
    ¬ overlapTest nb b := by
  obtain ⟨hbd, hbw, hgeom⟩ := hOK
  have hgap : (0:ℚ) < BOX_GAP := by norm_num [BOX_GAP]
  rcases hgeom with hlt | ⟨hequ, hz | ⟨hz, hx⟩⟩
  · exact absurd (hu ▸ hnu) (by omega)
  · rintro ⟨hdx, hdz⟩
    unfold zmin at hz
    rw [hnd, hbd] at hdz
    have h1 : nb.z - b.z ≥ d + BOX_GAP := by
      rw [hnz]
      rw [hbd] at hz
      linarith
    have h2 := le_abs_self (nb.z - b.z)
    linarith
  · rintro ⟨hdx, hdz⟩
    unfold xmax at hx
    rw [hnw] at hdx
    have h1 : nb.x - b.x ≥ (w + b.width)/2 + BOX_GAP := by
      rw [hnx]
      linarith
    have h2 := le_abs_self (nb.x - b.x)
    linarith

/-- A box emitted at the cursor position is behind the advanced cursor. -/
theorem emitted_behindOK {d w : ℚ} {c1 : Cursor} {nb : BoxData}
    (hw0 : 0 < w)
    (hnx : nb.x = c1.x + w/2) (hnz : nb.z = c1.z + d/2)
    (hnw : nb.width = w) (hnd : nb.depth = d) (hnu : nb.unitIndex = c1.unit) :
    behindOK d { c1 with boxIdx := c1.boxIdx + 1, x := c1.x + w + BOX_GAP } nb := by
  refine ⟨hnd, by rw [hnw]; exact hw0, Or.inr ⟨hnu, Or.inr ⟨?_, ?_⟩⟩⟩
  · unfold zmin
    rw [hnz, hnd]
    dsimp only
    ring
  · unfold xmax
    rw [hnx, hnw]
    dsimp only
    exact le_of_eq (by ring)



/-- Separation invariant of the inner packing loop, for a positive
footprint on a shelf of uniform depth: the loop keeps behind placements
behind, never emits a box overlapping a behind placement of the same
unit, leaves all its emissions behind the final cursor, and its emissions
are pairwise non-overlapping per unit. -/
theorem packBoxes_sep (aid pid lc : String) (shelf nu sh qty : Nat)
    (w h d : ℚ) (hw0 : 0 < w) (hd0 : 0 < d) :
    ∀ (n : Nat) (c c' : Cursor) (out : List BoxData),
      packBoxes aid pid lc shelf nu sh qty w h d n c = .ok (c', out) →
      ((∀ b, behindOK d c b → behindOK d c' b) ∧
       (∀ b, behindOK d c b → ∀ nb ∈ out, nb.unitIndex = b.unitIndex → ¬ overlapTest nb b) ∧
       (∀ nb ∈ out, behindOK d c' nb) ∧
       out.Pairwise (fun b1 b2 => b1.unitIndex = b2.unitIndex → ¬ overlapTest b1 b2)) := by
  intro n
  induction n with
  | zero =>
    intro c c' out hok
    simp only [packBoxes] at hok
    cases hok
    exact ⟨fun b hb => hb, by simp, by simp, List.Pairwise.nil⟩
  | succ n ih =>
    intro c c' out hok
    simp only [packBoxes] at hok
    cases hstep : stepCursor nu w d c with
    | mk c1 brk =>
      rw [hstep] at hok
      dsimp only at hok
      by_cases hbrk : brk = true
      · subst hbrk
        rw [if_pos rfl] at hok
        cases hok
        exact ⟨fun b hb => ⟨hb.1, hb.2.1, stepCursor_behind hstep hd0 hb.2.2⟩,
               by simp, by simp, List.Pairwise.nil⟩
      · rw [Bool.not_eq_true] at hbrk
        subst hbrk
        rw [if_neg (by simp)] at hok
        split at hok
        · split at hok
          · rename_i hguard heq
            cases hok
            obtain ⟨ih1, ih2, ih3, ih4⟩ := ih _ _ _ heq
            refine ⟨?_, ?_, ?_, ?_⟩
            · intro b hb
              exact ih1 b ⟨hb.1, hb.2.1, advance_behind hw0 (stepCursor_behind hstep hd0 hb.2.2)⟩
            · intro b hb nb hnb hu
              rcases List.mem_cons.1 hnb with rfl | hnb2
              · exact emitted_not_overlap
                  ⟨hb.1, hb.2.1, stepCursor_behind hstep hd0 hb.2.2⟩
                  rfl rfl rfl rfl rfl hu
              · exact ih2 b ⟨hb.1, hb.2.1, advance_behind hw0 (stepCursor_behind hstep hd0 hb.2.2)⟩ nb hnb2 hu
            · intro nb hnb
              rcases List.mem_cons.1 hnb with rfl | hnb2
              · exact ih1 _ (emitted_behindOK hw0 rfl rfl rfl rfl rfl)
              · exact ih3 nb hnb2
            · refine List.Pairwise.cons ?_ ih4
              intro nb hnb hu hov
              exact ih2 _ (emitted_behindOK hw0 rfl rfl rfl rfl rfl) nb hnb hu.symm
                (overlapTest_comm.mp hov)
          · cases hok
        · cases hok



/-- Separation invariant of the product loop: with positive resolved
footprints and a uniform resolved depth `D l` per shelf level `l`, the
loop preserves per-shelf behind-ness, never emits a placement overlapping
a behind placement of the same (unit, shelf), and its emissions are
pairwise separated. -/
theorem packProducts_sep (aisle : Aisle) (inv : InventoryMap) (D : Nat → ℚ) :
    ∀ (prods : List AisleProduct) (cursors cursors' : Nat → Cursor) (L : List BoxData),
      packProducts aisle inv prods cursors = .ok (cursors', L) →
      (∀ p ∈ prods, ∀ dims ∈ resolvedDimsOf inv p,
        0 < dims.width ∧ 0 < dims.depth ∧ dims.depth = D (shelfOf p)) →
      ((∀ b, BehindAll D cursors b → BehindAll D cursors' b) ∧
       (∀ b, BehindAll D cursors b → ∀ nb ∈ L, nb.unitIndex = b.unitIndex →
         nb.shelfLevel = b.shelfLevel → ¬ overlapTest nb b) ∧
       (∀ nb ∈ L, BehindAll D cursors' nb) ∧
       L.Pairwise SeparatedPair) := by
  intro prods
  induction prods with
  | nil =>
    intro cursors cursors' L hok hdims
    simp only [packProducts] at hok
    cases hok
    exact ⟨fun b hb => hb, by simp, by simp, List.Pairwise.nil⟩
  | cons p rest ih =>
    intro cursors cursors' L hok hdims
    simp only [packProducts] at hok
    cases hinv : inv p.productId with
    | none =>
      simp only [hinv] at hok
      exact ih _ _ _ hok (fun q hq => hdims q (List.mem_cons_of_mem _ hq))
    | some item =>
      simp only [hinv] at hok
      have hd : 0 < (resolveDims item).width ∧ 0 < (resolveDims item).depth ∧
          (resolveDims item).depth = D (shelfOf p) := by
        refine hdims p (List.mem_cons_self _ _) (resolveDims item) ?_
        simp [resolvedDimsOf, hinv]
      cases hpb : packBoxes aisle.id p.productId (resolveLabelColor item) (shelfOf p)
          (numUnitsOf aisle) aisle.shelves p.quantityBoxes
          (resolveDims item).width (resolveDims item).height (resolveDims item).depth
          p.quantityBoxes (cursors (shelfOf p)) with
      | error e =>
        simp only [hpb] at hok
        exact Except.noConfusion hok
      | ok cb =>
        obtain ⟨c1, boxes1⟩ := cb
        simp only [hpb] at hok
        obtain ⟨B1, B2, B3, B4⟩ := packBoxes_sep aisle.id p.productId
          (resolveLabelColor item) (shelfOf p) (numUnitsOf aisle) aisle.shelves
          p.quantityBoxes (resolveDims item).width (resolveDims item).height
          (resolveDims item).depth hd.1 hd.2.1 _ _ _ _ hpb
        have hfields := packBoxes_fields aisle.id p.productId
          (resolveLabelColor item) (shelfOf p) (numUnitsOf aisle) aisle.shelves
          p.quantityBoxes (resolveDims item).width (resolveDims item).height
          (resolveDims item).depth _ _ _ _ hpb
        cases hpr : packProducts aisle inv rest (Function.update cursors (shelfOf p) c1) with
        | error e =>
          simp only [hpr] at hok
          exact Except.noConfusion hok
        | ok cr =>
          obtain ⟨c2, boxes2⟩ := cr
          simp only [hpr] at hok
          cases hok
          obtain ⟨IH1, IH2, IH3, IH4⟩ :=
            ih _ _ _ hpr (fun q hq => hdims q (List.mem_cons_of_mem _ hq))
          -- transport of BehindAll across the update at shelfOf p
          have hupd : ∀ b, BehindAll D cursors b →
              BehindAll D (Function.update cursors (shelfOf p) c1) b := by
            intro b hb
            unfold BehindAll at hb ⊢
            by_cases hl : b.shelfLevel = shelfOf p
            · rw [hl, Function.update_same]
              rw [hl] at hb
              rw [← hd.2.2] at hb ⊢
              exact B1 b hb
            · rw [Function.update_noteq hl]
              exact hb
          have hbox1All : ∀ nb ∈ boxes1,
              BehindAll D (Function.update cursors (shelfOf p) c1) nb := by
            intro nb hnb
            unfold BehindAll
            have hs := (hfields nb hnb).2.2.1
            rw [hs, Function.update_same, ← hd.2.2]
            exact B3 nb hnb
          refine ⟨?_, ?_, ?_, ?_⟩
          · intro b hb
            exact IH1 b (hupd b hb)
          · intro b hb nb hnb hu hs
            rcases List.mem_append.1 hnb with hnb1 | hnb2
            · have hbs : b.shelfLevel = shelfOf p := by
                rw [← hs]
                exact (hfields nb hnb1).2.2.1
              have hbb : behindOK (resolveDims item).depth (cursors (shelfOf p)) b := by
                unfold BehindAll at hb
                rw [hbs] at hb
                rw [← hd.2.2] at hb
                exact hb
              exact B2 b hbb nb hnb1 hu
            · exact IH2 b (hupd b hb) nb hnb2 hu hs
          · intro nb hnb
            rcases List.mem_append.1 hnb with hnb1 | hnb2
            · exact IH1 nb (hbox1All nb hnb1)
            · exact IH3 nb hnb2
          · rw [List.pairwise_append]
            refine ⟨B4.imp ?_, IH4, ?_⟩
            · intro b1 b2 h12
              intro hu hs
              exact h12 hu
            · intro b1 hb1 b2 hb2
              intro hu hs
              intro hov
              exact IH2 b1 (hbox1All b1 hb1) b2 hb2 hu.symm hs.symm
                (overlapTest_comm.mp hov)

/-- **C2** (amended).  If every allocation's resolved box width and
depth are positive and all allocations sharing a (resolved) shelf level
have equal resolved box depth `D l`, then no two placements `pack` emits
for the same (unitIndex, shelfLevel) have overlapping footprints under
the centered test `|dx| < (w1+w2)/2 AND |dz| < (d1+d2)/2`.  The uniform
depth requirement is forced: with different depths on one shelf the
claim fails (see the counterexample). -/
theorem pack_no_overlap_uniform_depth (aisle : Aisle) (inv : InventoryMap)
    (D : Nat → ℚ)
    (hdims : ∀ p ∈ aisle.products, ∀ dims ∈ resolvedDimsOf inv p,
      0 < dims.width ∧ 0 < dims.depth ∧ dims.depth = D (shelfOf p))
    (L : List BoxData) (hok : pack aisle inv = .ok L) :
    L.Pairwise SeparatedPair := by
  unfold pack at hok
  cases hpp : packProducts aisle inv aisle.products (fun _ => initCursor) with
  | error e =>
    simp only [hpp] at hok
    exact Except.noConfusion hok
  | ok cr =>
    obtain ⟨cf, boxes⟩ := cr
    simp only [hpp] at hok
    cases hok
    exact (packProducts_sep aisle inv D _ _ _ _ hpp hdims).2.2.2

/-- **C2** (witness): the separation conclusion on the 50-box end-to-end
scenario, whose single product has a positive uniform footprint. -/
theorem pack_no_overlap_uniform_depth_witness :
    (packList c3Aisle c3Inv).Pairwise SeparatedPair :=
  pack_no_overlap_uniform_depth c3Aisle c3Inv (fun _ => 1/5)
    (by
      intro p hp dims hd
      simp only [c3Aisle, List.mem_singleton] at hp
      subst hp
      rw [Option.mem_def] at hd
      norm_num [resolvedDimsOf, c3Inv, smallBoxProduct, resolveDims] at hd
      subst hd
      norm_num [shelfOf])
    (packList c3Aisle c3Inv) (by with_unfolding_all decide)

end StorePlanner
